import Mathlib

set_option maxHeartbeats 1000000
set_option linter.unusedVariables false

/-
Verification of the JavaScript protobuf code generator
(src/generator/js_generator.h).

The header file is the only source available; functions whose bodies are
inline in the header (GeneratorOptions::GetFileNameExtension,
Generator::Generate, Generator::HasGenerateAll) are embedded directly from
the source.  Functions that are only declared in the header are modelled
from the specification (spec.md); each such definition carries a doc
comment starting with "Modelled from the spec:".
-/

namespace ProtobufJs

open List

/-- The import styles of GeneratorOptions::ImportStyle
(src/generator/js_generator.h lines 82-88). -/
inductive ImportStyle
  | kImportClosure
  | kImportCommonJs
  | kImportCommonJsStrict
  | kImportBrowser
  | kImportEs6
deriving DecidableEq, Repr

/-- The output modes of GeneratorOptions::OutputMode
(src/generator/js_generator.h lines 111-118). -/
inductive OutputMode
  | kOneOutputFilePerInputFile
  | kOneOutputFilePerSCC
  | kEverythingInOneFile
deriving DecidableEq, Repr

/-- The bytes-field modes of BytesMode
(src/generator/js_generator.h lines 68-72). -/
inductive BytesMode
  | BYTES_DEFAULT
  | BYTES_B64
  | BYTES_U8
deriving DecidableEq, Repr

/-- GeneratorOptions (src/generator/js_generator.h lines 74-148).
The field namespacePfx embeds the namespace prefix option of the struct. -/
structure GeneratorOptions where
  output_dir : String
  namespacePfx : String
  binary : Bool
  (import_style : ImportStyle)
  add_require_for_enums : Bool
  testonly : Bool
  library : String
  extension : String
  one_output_file_per_input_file : Bool
  annotate_code : Bool
deriving DecidableEq, Repr

/-- The default constructor of GeneratorOptions
(src/generator/js_generator.h lines 90-100). -/
def defaultOptions : GeneratorOptions :=
  { output_dir := ".", namespacePfx := "", binary := false,
    testonly := false, import_style := ImportStyle.kImportClosure,
    add_require_for_enums := false, library := "", extension := ".js",
    one_output_file_per_input_file := false, annotate_code := false }

/-- The default options with the CommonJs import style selected. -/
def commonJsOptions : GeneratorOptions :=
  { defaultOptions with import_style := ImportStyle.kImportCommonJs }

/-- The default options with the es6 import style selected. -/
def es6Options : GeneratorOptions :=
  { defaultOptions with import_style := ImportStyle.kImportEs6 }

/-- GeneratorOptions::GetFileNameExtension, embedded from the inline body in
src/generator/js_generator.h lines 107-109: the configured extension is used
only for the Closure import style, and the fixed "_pb.js" otherwise. -/
def GeneratorOptions.GetFileNameExtension (o : GeneratorOptions) : String :=
  if o.import_style = ImportStyle.kImportClosure then o.extension else "_pb.js"

/-- Modelled from the spec: GeneratorOptions::WantEs6 is only declared in the
header (line 126, "True if the code generator is in ES6 module generation
mode"); the es6-module system corresponds to the kImportEs6 import style. -/
def GeneratorOptions.WantEs6 (o : GeneratorOptions) : Bool :=
  o.import_style = ImportStyle.kImportEs6

/-- Modelled from the spec: GeneratorOptions::output_mode is only declared in
the header (line 121).  Per the spec invariant, module system es6-module
implies granularity one-unit-per-input-file; the library option selects the
single combined file; otherwise one file per input file when that flag is
set, else one file per SCC. -/
def GeneratorOptions.output_mode (o : GeneratorOptions) : OutputMode :=
  if o.WantEs6 || o.one_output_file_per_input_file then
    OutputMode.kOneOutputFilePerInputFile
  else if o.library ≠ "" then
    OutputMode.kEverythingInOneFile
  else
    OutputMode.kOneOutputFilePerSCC

/-- One key/value option applied to the accumulated GeneratorOptions, as in
option parsing; unknown keys or import styles are configuration errors. -/
def applyOption (o : GeneratorOptions) (kv : String × String) :
    Except String GeneratorOptions :=
  match kv.1 with
  | "import_style" =>
    match kv.2 with
    | "closure" => Except.ok { o with import_style := ImportStyle.kImportClosure }
    | "commonjs" => Except.ok { o with import_style := ImportStyle.kImportCommonJs }
    | "commonjs_strict" =>
        Except.ok { o with import_style := ImportStyle.kImportCommonJsStrict }
    | "browser" => Except.ok { o with import_style := ImportStyle.kImportBrowser }
    | "es6" => Except.ok { o with import_style := ImportStyle.kImportEs6 }
    | s => Except.error ("Unknown import style " ++ s)
  | "binary" => Except.ok { o with binary := true }
  | "add_require_for_enums" => Except.ok { o with add_require_for_enums := true }
  | "testonly" => Except.ok { o with testonly := true }
  | "library" => Except.ok { o with library := kv.2 }
  | "extension" => Except.ok { o with extension := kv.2 }
  | "one_output_file_per_input_file" =>
      Except.ok { o with one_output_file_per_input_file := true }
  | "annotate_code" => Except.ok { o with annotate_code := true }
  | "namespace_prefix" => Except.ok { o with namespacePfx := kv.2 }
  | "output_dir" => Except.ok { o with output_dir := kv.2 }
  | k => Except.error ("Unknown option: " ++ k)

/-- Folds the option list over applyOption, stopping at the first error. -/
def parseOptionList : List (String × String) → GeneratorOptions →
    Except String GeneratorOptions
  | [], o => Except.ok o
  | kv :: rest, o =>
    match applyOption o kv with
    | Except.ok o2 => parseOptionList rest o2
    | Except.error e => Except.error e

/-- Modelled from the spec: GeneratorOptions::ParseFromOptions is only
declared in the header (lines 102-104).  Per the spec's error taxonomy, an
incompatible option combination (the ES6 module system together with the
combined-library granularity) is detected eagerly and surfaced as a
descriptive configuration error before any emission. -/
def ParseFromOptions (options : List (String × String)) :
    Except String GeneratorOptions :=
  match parseOptionList options defaultOptions with
  | Except.error e => Except.error e
  | Except.ok o =>
    if o.WantEs6 = true ∧ o.library ≠ "" then
      Except.error "Es6 import style is not supported with the library option."
    else
      Except.ok o

/-- The result of one Generate call: success flag, the error out-parameter,
and the produced output files (name and content). -/
structure GenerateResult where
  ok : Bool
  error : String
  outputs : List (String × String)
deriving DecidableEq, Repr

/-- Generator::Generate, embedded from the inline body in
src/generator/js_generator.h lines 253-257: it sets the error message,
returns false, and produces no output. -/
def Generator.Generate (file : String) (parameter : String) : GenerateResult where
  ok := false
  error := "Unimplemented Generate() method. Call GenerateAll() instead."
  outputs := []

/-- Generator::HasGenerateAll, embedded from the inline body in
src/generator/js_generator.h line 259. -/
def Generator.HasGenerateAll : Bool := true

/-- The kinds of schema fields (spec section 3: scalar numeric, string,
bytes, message, enum, map). -/
inductive FieldKind
  | scalarNumeric
  | stringKind
  | bytesKind
  | messageKind
  | enumKind
  | mapKind
deriving DecidableEq, Repr

/-- A schema field (spec section 3, SchemaField).  For map-kind fields,
valueKind is the kind of the map's value type and typeName names the value
type; map key types are always primitive.  needsDefaultConstant records
whether a runtime default-value computation needs the numeric enum constant
resolved through the enum's namespace. -/
structure SchemaField where
  name : String
  number : Nat
  kind : FieldKind
  typeName : String
  valueKind : FieldKind
  needsDefaultConstant : Bool
deriving DecidableEq, Repr

/-- A schema message: fully-qualified name and its fields
(spec section 3, SchemaMessage). -/
structure SchemaMessage where
  fullName : String
  fields : List SchemaField
deriving DecidableEq, Repr

/-- The kind that decides a field's import requirement: map-kind fields are
treated by the kind of their value type (spec section 4.2). -/
def effectiveKind (f : SchemaField) : FieldKind :=
  match f.kind with
  | FieldKind.mapKind => f.valueKind
  | k => k

/-- Modelled from the spec: Generator::FindRequiresForField is only declared
in the header (lines 323-326).  A message-kind field always requires the
referenced message's namespace; an enum-kind field requires the referenced
enum's namespace only if the runtime default-value computation needs the
numeric constant and the add_require_for_enums option is set, and is
otherwise recorded as forward-declared; map-kind fields follow the rule of
their value kind; other kinds add nothing. -/
def FindRequiresForField (o : GeneratorOptions) (f : SchemaField)
    (required forwards : List String) : List String × List String :=
  match effectiveKind f with
  | FieldKind.messageKind => (f.typeName :: required, forwards)
  | FieldKind.enumKind =>
    if o.add_require_for_enums && f.needsDefaultConstant then
      (f.typeName :: required, forwards)
    else
      (required, f.typeName :: forwards)
  | _ => (required, forwards)

/-- The namespace a field contributes to the required set, if any
(the functional reading of FindRequiresForField's first component). -/
def reqName (o : GeneratorOptions) (f : SchemaField) : Option String :=
  match effectiveKind f with
  | FieldKind.messageKind => some f.typeName
  | FieldKind.enumKind =>
    if o.add_require_for_enums && f.needsDefaultConstant then
      some f.typeName
    else
      none
  | _ => none

/-- The namespace a field contributes to the forward-declared set, if any
(the functional reading of FindRequiresForField's second component). -/
def fwdName (o : GeneratorOptions) (f : SchemaField) : Option String :=
  match effectiveKind f with
  | FieldKind.enumKind =>
    if o.add_require_for_enums && f.needsDefaultConstant then
      none
    else
      some f.typeName
  | _ => none

/-- Modelled from the spec: Generator::FindRequiresForMessage is only
declared in the header (lines 318-322); it accumulates the contribution of
every field of the message into the required and forward-declared sets. -/
def FindRequiresForMessage (o : GeneratorOptions) (m : SchemaMessage)
    (required forwards : List String) : List String × List String :=
  m.fields.foldr (fun f acc => FindRequiresForField o f acc.1 acc.2)
    (required, forwards)

/-- All fields of all messages of one output unit. -/
def allFields (msgs : List SchemaMessage) : List SchemaField :=
  (msgs.map SchemaMessage.fields).flatten

/-- Modelled from the spec: the dependency analysis of one output unit walks
every field of every message in the unit, accumulating the required and
forward-declared sets. -/
def FindRequiresForUnit (o : GeneratorOptions) (msgs : List SchemaMessage) :
    List String × List String :=
  msgs.foldr (fun m acc => FindRequiresForMessage o m acc.1 acc.2) ([], [])

/-- A duplicate-free list in increasing lexicographic order, the emission
order of import statements. -/
def sortedDedup (l : List String) : List String :=
  List.insertionSort (· ≤ ·) l.dedup

/-- The rendered import block of one unit: the emitted require/import
statements (by resolved expression) and the forward declarations. -/
structure RequireBlock where
  requires : List String
  forwardDecls : List String
deriving DecidableEq, Repr

/-- Modelled from the spec: Generator::GenerateRequiresImpl is only declared
in the header (lines 312-317).  Import statements are emitted for the
required set minus the unit's own provided symbols, each exactly once, in
lexicographic order; forward declarations are emitted for the
forward-declared set minus the required set (required dominates) minus the
provided set. -/
def GenerateRequiresImpl (required forwards provided : List String) :
    RequireBlock where
  requires := sortedDedup (required.filter (fun s => decide (s ∉ provided)))
  forwardDecls := sortedDedup (forwards.filter
    (fun s => decide (s ∉ required) && decide (s ∉ provided)))

/-- Modelled from the spec: the import block of one unit is the rendering of
the unit's computed required and forward-declared sets. -/
def EmitRequiresForUnit (o : GeneratorOptions) (msgs : List SchemaMessage)
    (provided : List String) : RequireBlock :=
  GenerateRequiresImpl (FindRequiresForUnit o msgs).1
    (FindRequiresForUnit o msgs).2 provided

/-- A schema type as seen by the name resolver: fully-qualified name, simple
(last-segment) name, whether it is defined at file scope (top level, not
nested inside a message), and the name of its defining file. -/
structure TypeDesc where
  fullName : String
  simpleName : String
  isTopLevel : Bool
  definingFile : String
deriving DecidableEq, Repr

/-- A schema file: its name, top-level types, nested types, and messages
(spec section 3, SchemaFile). -/
structure SchemaFile where
  name : String
  topTypes : List TypeDesc
  nestedTypes : List TypeDesc
  messages : List SchemaMessage
deriving DecidableEq, Repr

/-- All types defined by a file, top-level and nested. -/
def typesOf (f : SchemaFile) : List TypeDesc :=
  f.topTypes ++ f.nestedTypes

/-- A well-formed file: its top-level types are marked top level with a
nonempty simple name, its nested types are not marked top level, every type
records the file as its defining file, and fully-qualified names are unique
within the file. -/
def WellFormedFile (f : SchemaFile) : Prop :=
  (∀ t ∈ f.topTypes,
    t.isTopLevel = true ∧ t.simpleName ≠ "" ∧ t.definingFile = f.name) ∧
  (∀ t ∈ f.nestedTypes, t.isTopLevel = false ∧ t.definingFile = f.name) ∧
  ((typesOf f).map TypeDesc.fullName).Nodup

/-- Modelled from the spec: TypeNames::JsName is only declared in the header
(lines 171-177): it returns the symbol the defining ES6 module exports for
the type with the given full name, and the empty string if the symbol is not
directly exported by that module.  Per the spec, the ES6 module of a file
exports exactly its top-level messages and enums, each under its assigned
binding name (its simple name). -/
def JsName (t : TypeDesc) : String :=
  if t.isTopLevel then t.simpleName else ""

/-- Modelled from the spec: TypeNames::ExportedNamesOfDeps is only declared
in the header (lines 240-241): for each top-level message or enum in each
dependency file there is an entry from full name to the exported name of the
corresponding class. -/
def ExportedNamesOfDeps (deps : List SchemaFile) : List (String × String) :=
  (deps.map (fun f => f.topTypes.map
    (fun t => (t.fullName, t.simpleName)))).flatten

/-- First-match association lookup by key. -/
def lookupName (k : String) : List (String × String) → Option String
  | [] => none
  | kv :: rest => if kv.1 = k then some kv.2 else lookupName k rest

/-- The JavaScript expression referring to a type from generated ES6 code:
an exported top-level type is reached through its imported binding, a nested
type through the namespace path below its top-level ancestor. -/
def es6RefExpr (t : TypeDesc) : String :=
  if t.isTopLevel then t.simpleName else t.fullName

/-- Modelled from the spec: the name resolver's type map is built once over
the closure of files passed together; for every type of every file of the
compiled set it maps the fully-qualified name to the referring expression. -/
def es6TypeMap (files : List SchemaFile) : List (String × String) :=
  (files.map (fun f => (typesOf f).map
    (fun t => (t.fullName, es6RefExpr t)))).flatten

/-- Modelled from the spec: TypeNames::JsExpression is only declared in the
header (lines 179-193).  A resolution request for a type whose defining file
was not included in the compiled set fails with a named-entity error
identifying the missing type; otherwise the mapped expression is returned. -/
def JsExpression (files : List SchemaFile) (t : TypeDesc) :
    Except String String :=
  match lookupName t.fullName (es6TypeMap files) with
  | some e => Except.ok e
  | none => Except.error ("Unable to resolve type: " ++ t.fullName)

/-- Modelled from the spec: Generator::GenerateAll is only declared in the
header (lines 261-263).  Each input file yields one output unit named by the
file name plus the configured file name extension, carrying the unit's
rendered import block; the unit's own types are its provided symbols. -/
def GenerateAll (o : GeneratorOptions) (files : List SchemaFile) :
    List (String × RequireBlock) :=
  files.map (fun f =>
    (f.name ++ o.GetFileNameExtension,
     EmitRequiresForUnit o f.messages ((typesOf f).map TypeDesc.fullName)))

/-- The whole run from raw parameters: options are parsed and validated
first; a configuration error aborts the run before any emission, producing
no output. -/
def GenerateAllFromParams (params : List (String × String))
    (files : List SchemaFile) :
    Except String (List (String × RequireBlock)) :=
  match ParseFromOptions params with
  | Except.error e => Except.error e
  | Except.ok o => Except.ok (GenerateAll o files)

/-- One generated accessor method: its name, the bytes coercion mode it
serves, and the number of the stored field it reads. -/
structure JsAccessor where
  methodName : String
  mode : BytesMode
  fieldNumber : Nat
deriving DecidableEq, Repr

/-- The field name with its first character upper-cased, as used in accessor
method names. -/
def capitalizeFirst (s : String) : String :=
  match s.data with
  | [] => s
  | c :: rest => String.mk (c.toUpper :: rest)

/-- Modelled from the spec: Generator::GenerateBytesWrapper is only declared
in the header (lines 459-460).  It produces the accessor for one bytes
coercion mode: the default-mode getter, or a helper coercing to base64 text
(suffix AsB64) or to a byte-array view (suffix AsU8); every variant reads
the same stored field. -/
def GenerateBytesWrapper (f : SchemaField) (m : BytesMode) : JsAccessor where
  methodName := "get" ++ capitalizeFirst f.name ++
    (match m with
     | BytesMode.BYTES_DEFAULT => ""
     | BytesMode.BYTES_B64 => "AsB64"
     | BytesMode.BYTES_U8 => "AsU8")
  mode := m
  fieldNumber := f.number

/-- Modelled from the spec: for a bytes-kind field with no explicit encoding
mode requested, the generated class contains the default-mode accessor plus
the two coercion helpers, all deriving from the one stored representation;
non-bytes fields get no bytes wrappers. -/
def GenerateBytesAccessors (f : SchemaField) : List JsAccessor :=
  if f.kind = FieldKind.bytesKind then
    [GenerateBytesWrapper f BytesMode.BYTES_DEFAULT,
     GenerateBytesWrapper f BytesMode.BYTES_B64,
     GenerateBytesWrapper f BytesMode.BYTES_U8]
  else
    []

/-- True when some unit of group g depends on some unit of group h. -/
def blockDepends (dep : Nat → Nat → Bool) (g h : List Nat) : Bool :=
  g.any (fun a => h.any (fun b => dep a b))

/-- A group is ready for emission when it depends on no group still waiting
to be emitted. -/
def isReady (dep : Nat → Nat → Bool) (g : List Nat)
    (others : List (List Nat)) : Bool :=
  others.all (fun h => !(blockDepends dep g h))

/-- Scans the waiting groups in original input order and returns the first
ready group together with the remaining groups in their original order;
skipped holds the already-scanned groups. -/
def pickReady (dep : Nat → Nat → Bool) :
    List (List Nat) → List (List Nat) → Option (List Nat × List (List Nat))
  | _, [] => none
  | skipped, g :: rest =>
    if isReady dep g (skipped ++ rest) then
      some (g, skipped ++ rest)
    else
      pickReady dep (skipped ++ [g]) rest

/-- The emission loop: while fuel lasts, emit the first ready group and
recurse on the rest; if no group is ready (a cross-group cycle, a fatal
internal-consistency error per the spec) the run stops. -/
def kahnLoop (dep : Nat → Nat → Bool) :
    Nat → List (List Nat) → List (List Nat)
  | 0, _ => []
  | fuel + 1, remaining =>
    match pickReady dep [] remaining with
    | none => []
    | some gr => gr.1 :: kahnLoop dep fuel gr.2

/-- Modelled from the spec: Generator::GenerateFilesInDepOrder and its
helper GenerateFileAndDeps are only declared in the header (lines 341-348).
Each SCC group supplied by the external collaborator is one atomic unit for
ordering; between groups a topological order over the group-level dependency
edges is emitted, ties among unconstrained groups broken by original input
order.  Units are numbered by Nat; dep a b means unit a depends on unit b. -/
def GenerateFilesInDepOrder (dep : Nat → Nat → Bool)
    (groups : List (List Nat)) : List (List Nat) :=
  kahnLoop dep groups.length groups

/-- The flat emission order of units produced by the orderer. -/
def emissionOrder (dep : Nat → Nat → Bool) (groups : List (List Nat)) :
    List Nat :=
  (GenerateFilesInDepOrder dep groups).flatten

/-- A concrete schema file used to evaluate the development on closed
inputs: one top-level message and one nested message. -/
def fileW : SchemaFile where
  name := "a.proto"
  topTypes := [⟨"pkg.Foo", "Foo", true, "a.proto"⟩]
  nestedTypes := [⟨"pkg.Foo.Bar", "Bar", false, "a.proto"⟩]
  messages := []

/-- The top-level type of fileW. -/
def typeFooW : TypeDesc := ⟨"pkg.Foo", "Foo", true, "a.proto"⟩

/-- A type whose defining file is not in the compiled set. -/
def typeMissingW : TypeDesc := ⟨"pkg.Missing", "Missing", true, "b.proto"⟩

/-- A concrete bytes-kind field used to evaluate the development. -/
def fieldBytesW : SchemaField :=
  ⟨"data", 1, FieldKind.bytesKind, "", FieldKind.scalarNumeric, false⟩

/-- A concrete enum-kind field used to evaluate the development. -/
def fieldEnumW : SchemaField :=
  ⟨"color", 2, FieldKind.enumKind, "pkg.Color", FieldKind.scalarNumeric, false⟩

/-- A concrete message-kind field referencing the type pkg.Dual. -/
def fieldMsgDualW : SchemaField :=
  ⟨"m", 3, FieldKind.messageKind, "pkg.Dual", FieldKind.scalarNumeric, false⟩

/-- A concrete enum-kind field referencing the same type pkg.Dual. -/
def fieldEnumDualW : SchemaField :=
  ⟨"e", 4, FieldKind.enumKind, "pkg.Dual", FieldKind.scalarNumeric, false⟩

/-- A concrete unit in which pkg.Dual is reached both by a field that
requires it and by a field that would only forward-declare it. -/
def msgsDualW : List SchemaMessage :=
  [⟨"pkg.M", [fieldMsgDualW, fieldEnumDualW]⟩]

/-- The unit msgsDualW with its two fields listed in the opposite order. -/
def msgsDualRevW : List SchemaMessage :=
  [⟨"pkg.M", [fieldEnumDualW, fieldMsgDualW]⟩]

/-- A concrete dependency function for three units: unit 1 depends on
unit 0 and unit 2 depends on unit 1. -/
def depW : Nat → Nat → Bool :=
  fun a b => (a == 1 && b == 0) || (a == 2 && b == 1)

/-- A concrete rank function for the singleton groups of depW, witnessing
that the dependency graph is acyclic. -/
def rankW : List Nat → Nat :=
  fun g => g.headD 0

/-! Helper lemmas about the sorted, duplicate-free rendering of sets. -/

theorem sortedDedup_perm (l : List String) : sortedDedup l ~ l.dedup :=
  List.perm_insertionSort _ _

theorem sortedDedup_sorted (l : List String) :
    List.Sorted (· ≤ ·) (sortedDedup l) :=
  List.sorted_insertionSort _ _

theorem sortedDedup_nodup (l : List String) : (sortedDedup l).Nodup :=
  (sortedDedup_perm l).nodup_iff.mpr l.nodup_dedup

theorem mem_sortedDedup {a : String} {l : List String} :
    a ∈ sortedDedup l ↔ a ∈ l := by
  rw [(sortedDedup_perm l).mem_iff, List.mem_dedup]

theorem sortedDedup_congr {l₁ l₂ : List String} (h : l₁ ~ l₂) :
    sortedDedup l₁ = sortedDedup l₂ :=
  List.eq_of_perm_of_sorted
    ((sortedDedup_perm l₁).trans (h.dedup.trans (sortedDedup_perm l₂).symm))
    (sortedDedup_sorted l₁) (sortedDedup_sorted l₂)

/-! Helper lemmas characterising the requires analysis. -/

theorem findRequiresForField_eq (o : GeneratorOptions) (f : SchemaField)
    (req fwd : List String) :
    FindRequiresForField o f req fwd =
      ((reqName o f).elim req (· :: req),
       (fwdName o f).elim fwd (· :: fwd)) := by
  cases h : effectiveKind f <;>
    cases hb : o.add_require_for_enums && f.needsDefaultConstant <;>
      simp [FindRequiresForField, reqName, fwdName, h, hb]

theorem findRequires_fields_eq (o : GeneratorOptions) (fs : List SchemaField)
    (req fwd : List String) :
    fs.foldr (fun f acc => FindRequiresForField o f acc.1 acc.2) (req, fwd) =
      (fs.filterMap (reqName o) ++ req, fs.filterMap (fwdName o) ++ fwd) := by
  induction fs with
  | nil => simp
  | cons f fs ih =>
    rw [List.foldr_cons, ih, findRequiresForField_eq]
    cases hr : reqName o f <;> cases hw : fwdName o f <;>
      simp [List.filterMap_cons, hr, hw]

theorem findRequiresForUnit_eq (o : GeneratorOptions)
    (msgs : List SchemaMessage) :
    FindRequiresForUnit o msgs =
      ((allFields msgs).filterMap (reqName o),
       (allFields msgs).filterMap (fwdName o)) := by
  induction msgs with
  | nil => simp [FindRequiresForUnit, allFields]
  | cons m ms ih =>
    have h1 : FindRequiresForUnit o (m :: ms) =
        FindRequiresForMessage o m (FindRequiresForUnit o ms).1
          (FindRequiresForUnit o ms).2 := rfl
    rw [h1, ih, FindRequiresForMessage, findRequires_fields_eq]
    simp [allFields, List.filterMap_append]

theorem mem_generateRequiresImpl_requires
    {required forwards provided : List String} {t : String} :
    t ∈ (GenerateRequiresImpl required forwards provided).requires ↔
      t ∈ required ∧ t ∉ provided := by
  simp [GenerateRequiresImpl, mem_sortedDedup, List.mem_filter]

theorem mem_generateRequiresImpl_forwardDecls
    {required forwards provided : List String} {t : String} :
    t ∈ (GenerateRequiresImpl required forwards provided).forwardDecls ↔
      t ∈ forwards ∧ t ∉ required ∧ t ∉ provided := by
  simp [GenerateRequiresImpl, mem_sortedDedup, List.mem_filter, and_assoc]

/-! Helper lemmas about the association lookup of the name resolver. -/

theorem lookupName_eq_none {k : String} {l : List (String × String)} :
    lookupName k l = none ↔ ∀ kv ∈ l, kv.1 ≠ k := by
  induction l with
  | nil => simp [lookupName]
  | cons kv rest ih =>
    by_cases h : kv.1 = k <;> simp [lookupName, h, ih]

theorem lookupName_isSome_of_mem {k v : String} {l : List (String × String)}
    (h : (k, v) ∈ l) : (lookupName k l).isSome = true := by
  induction l with
  | nil => simp at h
  | cons kv rest ih =>
    rcases List.mem_cons.mp h with rfl | hmem
    · simp [lookupName]
    · by_cases he : kv.1 = k <;> simp [lookupName, he, ih hmem]

/-! Helper lemmas about the unit orderer. -/

theorem pickReady_sound (dep : Nat → Nat → Bool) :
    ∀ (l skipped : List (List Nat)) (g : List Nat) (rest : List (List Nat)),
      pickReady dep skipped l = some (g, rest) →
      isReady dep g rest = true ∧ g :: rest ~ skipped ++ l := by
  intro l
  induction l with
  | nil => intro skipped g rest h; simp [pickReady] at h
  | cons a l ih =>
    intro skipped g rest h
    rw [pickReady] at h
    split at h
    · rename_i hr
      simp only [Option.some.injEq, Prod.mk.injEq] at h
      obtain ⟨rfl, rfl⟩ := h
      exact ⟨hr, List.perm_middle.symm⟩
    · have hih := ih (skipped ++ [a]) g rest h
      refine ⟨hih.1, ?_⟩
      have h2 := hih.2
      rwa [List.append_assoc, List.singleton_append] at h2

theorem pickReady_complete (dep : Nat → Nat → Bool) :
    ∀ (l skipped : List (List Nat)),
      (skipped ++ l).Nodup →
      (∃ g ∈ l, isReady dep g ((skipped ++ l).erase g) = true) →
      (pickReady dep skipped l).isSome = true := by
  intro l
  induction l with
  | nil => intro skipped _ h; simp at h
  | cons a l ih =>
    intro skipped hnd h
    rw [pickReady]
    split
    · simp
    · rename_i hnr
      have hnd' : ((skipped ++ [a]) ++ l).Nodup := by
        rwa [List.append_assoc, List.singleton_append]
      apply ih (skipped ++ [a]) hnd'
      obtain ⟨g, hg, hready⟩ := h
      rcases List.mem_cons.mp hg with rfl | hgl
      · exfalso
        apply hnr
        have hga : g ∉ skipped := by
          intro hmem
          have hdisj := List.disjoint_of_nodup_append hnd
          exact hdisj hmem (List.mem_cons_self g l)
        have herase : (skipped ++ g :: l).erase g = skipped ++ l := by
          rw [List.erase_append_right _ hga, List.erase_cons_head]
        rwa [herase] at hready
      · refine ⟨g, hgl, ?_⟩
        rwa [List.append_assoc, List.singleton_append]

theorem exists_ready (dep : Nat → Nat → Bool) (rank : List Nat → Nat)
    (T : List (List Nat)) (hne : T ≠ []) (hnd : T.Nodup)
    (hrank : ∀ g ∈ T, ∀ h ∈ T, g ≠ h →
      blockDepends dep g h = true → rank h < rank g) :
    ∃ g ∈ T, isReady dep g (T.erase g) = true := by
  have hne' : T.toFinset.Nonempty := by
    cases T with
    | nil => cases hne rfl
    | cons a T => exact ⟨a, by simp⟩
  obtain ⟨g, hgF, hmin⟩ := T.toFinset.exists_min_image rank hne'
  have hgT : g ∈ T := List.mem_toFinset.mp hgF
  refine ⟨g, hgT, ?_⟩
  rw [isReady, List.all_eq_true]
  intro h hh
  have hneq : h ≠ g := (hnd.mem_erase_iff.mp hh).1
  have hhT : h ∈ T := (hnd.mem_erase_iff.mp hh).2
  rw [Bool.not_eq_true']
  cases hb : blockDepends dep g h with
  | false => rfl
  | true =>
    exfalso
    have hlt := hrank g hgT h hhT (Ne.symm hneq) hb
    have hle := hmin h (List.mem_toFinset.mpr hhT)
    omega

theorem kahnLoop_spec (dep : Nat → Nat → Bool) (rank : List Nat → Nat) :
    ∀ (fuel : Nat) (T : List (List Nat)),
      T.length ≤ fuel → T.Nodup →
      (∀ g ∈ T, ∀ h ∈ T, g ≠ h →
        blockDepends dep g h = true → rank h < rank g) →
      kahnLoop dep fuel T ~ T ∧
        List.Pairwise (fun g h => blockDepends dep g h = false)
          (kahnLoop dep fuel T) := by
  intro fuel
  induction fuel with
  | zero =>
    intro T hlen hnd hrank
    have hT : T = [] := List.length_eq_zero.mp (Nat.le_zero.mp hlen)
    subst hT
    simp [kahnLoop]
  | succ fuel ih =>
    intro T hlen hnd hrank
    rw [kahnLoop]
    by_cases hT : T = []
    · subst hT
      simp [pickReady]
    · have hpick : (pickReady dep [] T).isSome = true := by
        apply pickReady_complete dep T []
        · simpa using hnd
        · have hex := exists_ready dep rank T hT hnd hrank
          simpa using hex
      obtain ⟨gr, hsome⟩ := Option.isSome_iff_exists.mp hpick
      obtain ⟨g, rest⟩ := gr
      rw [hsome]
      obtain ⟨hready, hperm⟩ := pickReady_sound dep T [] g rest hsome
      rw [List.nil_append] at hperm
      have hndgr : (g :: rest).Nodup := hperm.nodup_iff.mpr hnd
      have hndrest : rest.Nodup := hndgr.of_cons
      have hlenrest : rest.length ≤ fuel := by
        have := hperm.length_eq
        simp at this
        omega
      have hrankrest : ∀ g' ∈ rest, ∀ h ∈ rest, g' ≠ h →
          blockDepends dep g' h = true → rank h < rank g' := by
        intro g' hg' h hh hne hbd
        exact hrank g' (hperm.mem_iff.mp (List.mem_cons_of_mem g hg'))
          h (hperm.mem_iff.mp (List.mem_cons_of_mem g hh)) hne hbd
      obtain ⟨ihp, ihpw⟩ := ih rest hlenrest hndrest hrankrest
      constructor
      · exact (ihp.cons g).trans hperm
      · rw [List.pairwise_cons]
        refine ⟨?_, ihpw⟩
        intro h hh
        have hhrest : h ∈ rest := ihp.mem_iff.mp hh
        have hall := List.all_eq_true.mp hready h hhrest
        rwa [Bool.not_eq_true'] at hall

/-! Claim theorems. -/

/-- C10: For every input file and parameter string, the single-file entry
point Generator::Generate returns false and sets the error output to
"Unimplemented Generate() method. Call GenerateAll() instead." without
producing any output, and HasGenerateAll returns true, so only the
all-files entry point performs generation. -/
theorem generate_unimplemented (file parameter : String) :
    Generator.Generate file parameter =
      { ok := false
        error := "Unimplemented Generate() method. Call GenerateAll() instead."
        outputs := [] } ∧
    Generator.HasGenerateAll = true :=
  ⟨rfl, rfl⟩

/-- C2 counterexample: under the CommonJs import style the options carry the
configured extension ".js", yet GetFileNameExtension returns "_pb.js", so
the claim that the configured extension is returned regardless of the
selected import style is false. -/
theorem getFileNameExtension_counterexample :
    GeneratorOptions.GetFileNameExtension commonJsOptions ≠
      commonJsOptions.extension := by
  decide

/-- C2 (amended): GetFileNameExtension returns the configured extension
exactly when the Closure import style is selected; for every other import
style it returns the fixed extension "_pb.js". -/
theorem getFileNameExtension_spec (o : GeneratorOptions) :
    (o.import_style = ImportStyle.kImportClosure →
      o.GetFileNameExtension = o.extension) ∧
    (o.import_style ≠ ImportStyle.kImportClosure →
      o.GetFileNameExtension = "_pb.js") := by
  constructor <;> intro h <;> simp [GeneratorOptions.GetFileNameExtension, h]

/-- C2 witness: the amended claim evaluated at the default options, the
style of which is the Closure import style. -/
theorem getFileNameExtension_spec_witness :
    defaultOptions.GetFileNameExtension = defaultOptions.extension :=
  (getFileNameExtension_spec defaultOptions).1 rfl

/-- C1: Every GeneratorOptions value accepted by option parsing satisfies
the invariant that the ES6 module system implies one-output-file-per-input-
file granularity and an empty (non-combined) library; and when option
parsing fails the whole run from parameters aborts with that configuration
error, producing no output. -/
theorem parseFromOptions_es6_invariant :
    (∀ params o, ParseFromOptions params = Except.ok o →
      (o.WantEs6 = true →
        o.output_mode = OutputMode.kOneOutputFilePerInputFile) ∧
      ¬(o.WantEs6 = true ∧ o.library ≠ "")) ∧
    (∀ params files e, ParseFromOptions params = Except.error e →
      GenerateAllFromParams params files = Except.error e) := by
  constructor
  · intro params o h
    have hlib : ¬(o.WantEs6 = true ∧ o.library ≠ "") := by
      rw [ParseFromOptions] at h
      cases hp : parseOptionList params defaultOptions with
      | error e => rw [hp] at h; cases h
      | ok o2 =>
        rw [hp] at h
        by_cases hc : o2.WantEs6 = true ∧ o2.library ≠ ""
        · simp [hc] at h
        · simp [hc] at h
          subst h
          exact hc
    refine ⟨?_, hlib⟩
    intro hes
    simp [GeneratorOptions.output_mode, hes]
  · intro params files e h
    rw [GenerateAllFromParams, h]

/-- C1 witness: the invariant evaluated on the concrete accepted option list
selecting the es6 import style, and the rejection evaluated on the concrete
option list pairing es6 with a combined library. -/
theorem parseFromOptions_es6_invariant_witness :
    ((es6Options.WantEs6 = true →
      es6Options.output_mode = OutputMode.kOneOutputFilePerInputFile) ∧
      ¬(es6Options.WantEs6 = true ∧ es6Options.library ≠ "")) ∧
    GenerateAllFromParams [("import_style", "es6"), ("library", "mylib")] [] =
      Except.error "Es6 import style is not supported with the library option." :=
  ⟨parseFromOptions_es6_invariant.1 [("import_style", "es6")] es6Options rfl,
   parseFromOptions_es6_invariant.2
      [("import_style", "es6"), ("library", "mylib")] []
      "Es6 import style is not supported with the library option." rfl⟩

/-- C3: An enum-kind field places the referenced enum's namespace in the
required set exactly when the add_require_for_enums option is set and the
runtime default-value computation needs the constant; in every other case
the enum goes to the forward-declared set, and the consuming unit emits for
it no import/require statement, only a forward declaration. -/
theorem findRequiresForField_enum_spec (o : GeneratorOptions)
    (f : SchemaField) (hk : f.kind = FieldKind.enumKind) :
    (f.typeName ∈ (FindRequiresForField o f [] []).1 ↔
      o.add_require_for_enums = true ∧ f.needsDefaultConstant = true) ∧
    (f.typeName ∈ (FindRequiresForField o f [] []).2 ↔
      ¬(o.add_require_for_enums = true ∧ f.needsDefaultConstant = true)) ∧
    (¬(o.add_require_for_enums = true ∧ f.needsDefaultConstant = true) →
      f.typeName ∉
        (EmitRequiresForUnit o [⟨"pkg.M", [f]⟩] []).requires ∧
      f.typeName ∈
        (EmitRequiresForUnit o [⟨"pkg.M", [f]⟩] []).forwardDecls) := by
  have hek : effectiveKind f = FieldKind.enumKind := by
    simp [effectiveKind, hk]
  cases ha : o.add_require_for_enums <;> cases hd : f.needsDefaultConstant <;>
    simp [FindRequiresForField, hek, ha, hd, EmitRequiresForUnit,
      FindRequiresForUnit, FindRequiresForMessage,
      mem_generateRequiresImpl_requires, mem_generateRequiresImpl_forwardDecls]

/-- C3 witness: the enum rule evaluated on a concrete enum-kind field under
the default options, where add_require_for_enums is disabled. -/
theorem findRequiresForField_enum_spec_witness :
    (fieldEnumW.typeName ∈
        (FindRequiresForField defaultOptions fieldEnumW [] []).1 ↔
      defaultOptions.add_require_for_enums = true ∧
        fieldEnumW.needsDefaultConstant = true) ∧
    (fieldEnumW.typeName ∈
        (FindRequiresForField defaultOptions fieldEnumW [] []).2 ↔
      ¬(defaultOptions.add_require_for_enums = true ∧
        fieldEnumW.needsDefaultConstant = true)) ∧
    (¬(defaultOptions.add_require_for_enums = true ∧
        fieldEnumW.needsDefaultConstant = true) →
      fieldEnumW.typeName ∉
        (EmitRequiresForUnit defaultOptions [⟨"pkg.M", [fieldEnumW]⟩] []).requires ∧
      fieldEnumW.typeName ∈
        (EmitRequiresForUnit defaultOptions [⟨"pkg.M", [fieldEnumW]⟩] []).forwardDecls) :=
  findRequiresForField_enum_spec defaultOptions fieldEnumW rfl

/-- C4: For every output unit, the emitted import list is sorted
lexicographically and duplicate-free; it contains a type exactly when the
type is in the unit's required set and not self-defined, each such type
exactly once; and a type in the required set never appears among the forward
declarations (required dominates). -/
theorem generateRequires_unit_spec (o : GeneratorOptions)
    (msgs : List SchemaMessage) (provided : List String) :
    List.Sorted (· ≤ ·) (EmitRequiresForUnit o msgs provided).requires ∧
    (EmitRequiresForUnit o msgs provided).requires.Nodup ∧
    (∀ t, t ∈ (EmitRequiresForUnit o msgs provided).requires ↔
      t ∈ (FindRequiresForUnit o msgs).1 ∧ t ∉ provided) ∧
    (∀ t, t ∈ (FindRequiresForUnit o msgs).1 →
      t ∉ (EmitRequiresForUnit o msgs provided).forwardDecls) ∧
    (∀ t, t ∈ (FindRequiresForUnit o msgs).1 → t ∉ provided →
      (EmitRequiresForUnit o msgs provided).requires.count t = 1) := by
  refine ⟨sortedDedup_sorted _, sortedDedup_nodup _, ?_, ?_, ?_⟩
  · intro t
    exact mem_generateRequiresImpl_requires
  · intro t ht hmem
    exact (mem_generateRequiresImpl_forwardDecls.mp hmem).2.1 ht
  · intro t ht hp
    exact List.count_eq_one_of_mem (sortedDedup_nodup _)
      (mem_generateRequiresImpl_requires.mpr ⟨ht, hp⟩)

/-- C4 witness: the emitted import block of a concrete unit in which the
type pkg.Dual is reached both by a message-kind field (required) and an
enum-kind field (forward-declarable): it is imported once and not
forward-declared. -/
theorem generateRequires_unit_spec_witness :
    ("pkg.Dual" ∈
      (EmitRequiresForUnit defaultOptions msgsDualW []).requires ∧
      "pkg.Dual" ∉ []) ∧
    "pkg.Dual" ∉
      (EmitRequiresForUnit defaultOptions msgsDualW []).forwardDecls ∧
    (EmitRequiresForUnit defaultOptions msgsDualW []).requires.count
      "pkg.Dual" = 1 :=
  ⟨⟨((generateRequires_unit_spec defaultOptions msgsDualW []).2.2.1
        "pkg.Dual").mpr ⟨by decide, by decide⟩, by decide⟩,
   (generateRequires_unit_spec defaultOptions msgsDualW []).2.2.2.1
      "pkg.Dual" (by decide),
   (generateRequires_unit_spec defaultOptions msgsDualW []).2.2.2.2
      "pkg.Dual" (by decide) (by decide)⟩

/-- C7: Generation is deterministic: GenerateAll is a pure function whose
two runs over identical inputs coincide, and the emitted import block of a
unit is invariant under any permutation of the unit's collected fields, so
the output never depends on the iteration order of the underlying
containers. -/
theorem generateAll_deterministic :
    (∀ (o : GeneratorOptions) (files : List SchemaFile),
      GenerateAll o files = GenerateAll o files) ∧
    (∀ (o : GeneratorOptions) (provided : List String)
       (msgs₁ msgs₂ : List SchemaMessage),
      allFields msgs₁ ~ allFields msgs₂ →
      EmitRequiresForUnit o msgs₁ provided =
        EmitRequiresForUnit o msgs₂ provided) := by
  refine ⟨fun o files => rfl, ?_⟩
  intro o provided msgs₁ msgs₂ hperm
  have hreq : (FindRequiresForUnit o msgs₁).1 ~
      (FindRequiresForUnit o msgs₂).1 := by
    rw [findRequiresForUnit_eq, findRequiresForUnit_eq]
    exact hperm.filterMap _
  have hfwd : (FindRequiresForUnit o msgs₁).2 ~
      (FindRequiresForUnit o msgs₂).2 := by
    rw [findRequiresForUnit_eq, findRequiresForUnit_eq]
    exact hperm.filterMap _
  unfold EmitRequiresForUnit GenerateRequiresImpl
  congr 1
  · exact sortedDedup_congr (hreq.filter _)
  · have hstep : (FindRequiresForUnit o msgs₁).2.filter
        (fun s => decide (s ∉ (FindRequiresForUnit o msgs₁).1) &&
          decide (s ∉ provided)) =
        (FindRequiresForUnit o msgs₁).2.filter
        (fun s => decide (s ∉ (FindRequiresForUnit o msgs₂).1) &&
          decide (s ∉ provided)) := by
      apply List.filter_congr
      intro x hx
      have hiff : (x ∉ (FindRequiresForUnit o msgs₁).1) ↔
          (x ∉ (FindRequiresForUnit o msgs₂).1) := not_congr hreq.mem_iff
      have hdec : decide (x ∉ (FindRequiresForUnit o msgs₁).1) =
          decide (x ∉ (FindRequiresForUnit o msgs₂).1) :=
        decide_eq_decide.mpr hiff
      rw [hdec]
    rw [hstep]
    exact sortedDedup_congr (hfwd.filter _)

/-- C7 witness: the emitted import block of a concrete unit is unchanged
when its two fields are collected in the opposite order. -/
theorem generateAll_deterministic_witness :
    EmitRequiresForUnit defaultOptions msgsDualW [] =
      EmitRequiresForUnit defaultOptions msgsDualRevW [] :=
  generateAll_deterministic.2 defaultOptions [] msgsDualW msgsDualRevW
    (by decide)

/-- C5: When the supplied SCC grouping of the dependency graph admits a rank
function (the group-level dependency graph is acyclic, which holds both for
an acyclic unit graph with singleton groups and for SCC groups of a cyclic
graph), the orderer emits every group exactly once, each group as one
contiguous block of the emitted output, and no earlier block depends on a
later block — every unit is emitted after every unit it depends on. -/
theorem generateFilesInDepOrder_spec (dep : Nat → Nat → Bool)
    (groups : List (List Nat)) (rank : List Nat → Nat)
    (hnd : groups.Nodup)
    (hrank : ∀ g ∈ groups, ∀ h ∈ groups, g ≠ h →
      blockDepends dep g h = true → rank h < rank g) :
    GenerateFilesInDepOrder dep groups ~ groups ∧
    (∀ g ∈ GenerateFilesInDepOrder dep groups,
      g <:+: emissionOrder dep groups) ∧
    (∀ i j (hi : i < (GenerateFilesInDepOrder dep groups).length)
       (hj : j < (GenerateFilesInDepOrder dep groups).length), i < j →
      ∀ a ∈ (GenerateFilesInDepOrder dep groups).get ⟨i, hi⟩,
      ∀ b ∈ (GenerateFilesInDepOrder dep groups).get ⟨j, hj⟩,
        dep a b = false) := by
  obtain ⟨hperm, hpw⟩ :=
    kahnLoop_spec dep rank groups.length groups le_rfl hnd hrank
  refine ⟨hperm, ?_, ?_⟩
  · intro g hg
    exact List.infix_of_mem_flatten hg
  · intro i j hi hj hij a ha b hb
    have hR := List.pairwise_iff_get.mp hpw ⟨i, hi⟩ ⟨j, hj⟩
      (Fin.mk_lt_mk.mpr hij)
    cases hd : dep a b with
    | false => rfl
    | true =>
      exfalso
      have hbd : blockDepends dep
          ((GenerateFilesInDepOrder dep groups).get ⟨i, hi⟩)
          ((GenerateFilesInDepOrder dep groups).get ⟨j, hj⟩) = true := by
        rw [blockDepends, List.any_eq_true]
        refine ⟨a, ha, ?_⟩
        rw [List.any_eq_true]
        exact ⟨b, hb, hd⟩
      unfold GenerateFilesInDepOrder at hbd
      rw [hR] at hbd
      exact Bool.false_ne_true hbd

/-- C5 witness: the orderer evaluated on three singleton groups where unit 1
depends on unit 0 and unit 2 depends on unit 1 (an acyclic graph with its
rank function). -/
theorem generateFilesInDepOrder_spec_witness :
    GenerateFilesInDepOrder depW [[0], [1], [2]] ~ [[0], [1], [2]] ∧
    (∀ g ∈ GenerateFilesInDepOrder depW [[0], [1], [2]],
      g <:+: emissionOrder depW [[0], [1], [2]]) ∧
    (∀ i j (hi : i < (GenerateFilesInDepOrder depW [[0], [1], [2]]).length)
       (hj : j < (GenerateFilesInDepOrder depW [[0], [1], [2]]).length),
      i < j →
      ∀ a ∈ (GenerateFilesInDepOrder depW [[0], [1], [2]]).get ⟨i, hi⟩,
      ∀ b ∈ (GenerateFilesInDepOrder depW [[0], [1], [2]]).get ⟨j, hj⟩,
        depW a b = false) :=
  generateFilesInDepOrder_spec depW [[0], [1], [2]] rankW
    (by decide) (by decide)

/-- C6: For a well-formed file, every top-level type resolves through
JsName to the nonempty symbol its defining ES6 module exports for it (the
entry recorded by ExportedNamesOfDeps), and every nested type resolves to
the empty string and has no entry in the exported-names map, so it must be
reached through a namespace path rather than an imported binding. -/
theorem jsName_spec (f : SchemaFile) (hwf : WellFormedFile f) :
    (∀ t ∈ f.topTypes,
      JsName t = t.simpleName ∧ JsName t ≠ "" ∧
      (t.fullName, JsName t) ∈ ExportedNamesOfDeps [f]) ∧
    (∀ t ∈ f.nestedTypes,
      JsName t = "" ∧ ∀ s, (t.fullName, s) ∉ ExportedNamesOfDeps [f]) := by
  obtain ⟨htop, hnest, hnd⟩ := hwf
  constructor
  · intro t ht
    obtain ⟨h1, h2, _⟩ := htop t ht
    have hj : JsName t = t.simpleName := by simp [JsName, h1]
    refine ⟨hj, by rw [hj]; exact h2, ?_⟩
    rw [hj]
    simp only [ExportedNamesOfDeps, List.map_cons, List.map_nil,
      List.flatten_cons, List.flatten_nil, List.append_nil, List.mem_map]
    exact ⟨t, ht, rfl⟩
  · intro t ht
    obtain ⟨h1, _⟩ := hnest t ht
    refine ⟨by simp [JsName, h1], ?_⟩
    intro s hmem
    simp only [ExportedNamesOfDeps, List.map_cons, List.map_nil,
      List.flatten_cons, List.flatten_nil, List.append_nil,
      List.mem_map] at hmem
    obtain ⟨u, hu, hueq⟩ := hmem
    have hufn : u.fullName = t.fullName := congrArg Prod.fst hueq
    have hmap : (typesOf f).map TypeDesc.fullName =
        f.topTypes.map TypeDesc.fullName ++
          f.nestedTypes.map TypeDesc.fullName := by
      simp [typesOf]
    rw [hmap] at hnd
    have hdisj := List.disjoint_of_nodup_append hnd
    have hmem1 : t.fullName ∈ f.topTypes.map TypeDesc.fullName :=
      hufn ▸ List.mem_map_of_mem TypeDesc.fullName hu
    have hmem2 : t.fullName ∈ f.nestedTypes.map TypeDesc.fullName :=
      List.mem_map_of_mem TypeDesc.fullName ht
    exact hdisj hmem1 hmem2

/-- C6 witness: the resolver evaluated on the concrete well-formed file
fileW with one top-level and one nested type. -/
theorem jsName_spec_witness :
    (∀ t ∈ fileW.topTypes,
      JsName t = t.simpleName ∧ JsName t ≠ "" ∧
      (t.fullName, JsName t) ∈ ExportedNamesOfDeps [fileW]) ∧
    (∀ t ∈ fileW.nestedTypes,
      JsName t = "" ∧ ∀ s, (t.fullName, s) ∉ ExportedNamesOfDeps [fileW]) :=
  jsName_spec fileW (by constructor <;> simp [fileW, typesOf])

/-- C8: An ES6 module-export resolution request succeeds for every type
whose defining file is in the set of files passed to the generator, and for
a type not defined by any file of the compiled set it fails with a
named-entity error identifying the missing type, producing no output. -/
theorem jsExpression_spec (files : List SchemaFile) (t : TypeDesc) :
    ((∃ f ∈ files, t ∈ typesOf f) →
      ∃ e, JsExpression files t = Except.ok e) ∧
    ((∀ f ∈ files, ∀ u ∈ typesOf f, u.fullName ≠ t.fullName) →
      JsExpression files t =
        Except.error ("Unable to resolve type: " ++ t.fullName)) := by
  constructor
  · intro h
    obtain ⟨f, hf, ht⟩ := h
    have hmem : (t.fullName, es6RefExpr t) ∈ es6TypeMap files := by
      simp only [es6TypeMap, List.mem_flatten, List.mem_map]
      exact ⟨(typesOf f).map (fun u => (u.fullName, es6RefExpr u)),
        ⟨f, hf, rfl⟩, List.mem_map_of_mem _ ht⟩
    have hsome := lookupName_isSome_of_mem hmem
    rw [JsExpression]
    cases hl : lookupName t.fullName (es6TypeMap files) with
    | none => rw [hl] at hsome; simp at hsome
    | some e => exact ⟨e, rfl⟩
  · intro h
    have hnone : lookupName t.fullName (es6TypeMap files) = none := by
      rw [lookupName_eq_none]
      intro kv hkv
      simp only [es6TypeMap, List.mem_flatten, List.mem_map] at hkv
      obtain ⟨entries, ⟨f, hf, rfl⟩, hkv2⟩ := hkv
      obtain ⟨u, hu, rfl⟩ := List.mem_map.mp hkv2
      exact h f hf u hu
    rw [JsExpression, hnone]

/-- C8 witness: resolution evaluated on the concrete compiled set
containing only fileW: a type of fileW resolves, while a type defined in a
file absent from the set fails with the error naming it. -/
theorem jsExpression_spec_witness :
    (∃ e, JsExpression [fileW] typeFooW = Except.ok e) ∧
    JsExpression [fileW] typeMissingW =
      Except.error ("Unable to resolve type: " ++ typeMissingW.fullName) :=
  ⟨(jsExpression_spec [fileW] typeFooW).1 (by decide),
   (jsExpression_spec [fileW] typeMissingW).2 (by decide)⟩

/-- C9: For every bytes-kind field with no explicit encoding mode, the
generated class contains exactly three accessors: the default-mode getter
plus the two helpers coercing to base64 text (suffix AsB64) and to a
byte-array view (suffix AsU8), all reading the same stored field. -/
theorem generateBytesAccessors_spec (f : SchemaField)
    (h : f.kind = FieldKind.bytesKind) :
    (GenerateBytesAccessors f).length = 3 ∧
    (GenerateBytesAccessors f).map JsAccessor.mode =
      [BytesMode.BYTES_DEFAULT, BytesMode.BYTES_B64, BytesMode.BYTES_U8] ∧
    (GenerateBytesAccessors f).map JsAccessor.methodName =
      ["get" ++ capitalizeFirst f.name,
       "get" ++ capitalizeFirst f.name ++ "AsB64",
       "get" ++ capitalizeFirst f.name ++ "AsU8"] ∧
    (∀ a ∈ GenerateBytesAccessors f, a.fieldNumber = f.number) := by
  simp [GenerateBytesAccessors, h, GenerateBytesWrapper]

/-- C9 witness: the accessor set generated for the concrete bytes field
fieldBytesW. -/
theorem generateBytesAccessors_spec_witness :
    (GenerateBytesAccessors fieldBytesW).length = 3 ∧
    (GenerateBytesAccessors fieldBytesW).map JsAccessor.mode =
      [BytesMode.BYTES_DEFAULT, BytesMode.BYTES_B64, BytesMode.BYTES_U8] ∧
    (GenerateBytesAccessors fieldBytesW).map JsAccessor.methodName =
      ["get" ++ capitalizeFirst fieldBytesW.name,
       "get" ++ capitalizeFirst fieldBytesW.name ++ "AsB64",
       "get" ++ capitalizeFirst fieldBytesW.name ++ "AsU8"] ∧
    (∀ a ∈ GenerateBytesAccessors fieldBytesW,
      a.fieldNumber = fieldBytesW.number) :=
  generateBytesAccessors_spec fieldBytesW rfl

end ProtobufJs
